import Mathlib

/-!
Verification model of the e-commerce ingestion pipeline
(`src/ingest_to_sqlite.py`).

Modelling conventions:

* SQLite storage values are modelled by `Value` (NULL / INTEGER / REAL /
  TEXT).  REAL values are modelled as exact fractions (`Frac`), i.e. the
  idealisation of IEEE doubles by exact rational arithmetic; fractions are
  kept unnormalised so that every operation is computable by the kernel,
  and SQLite value comparison (`sqlEq`) compares them semantically by
  cross-multiplication.
* Python `float(s)` is modelled by `parseDec` for finite decimal/scientific
  literals (optional surrounding whitespace, sign, digits, decimal point,
  exponent).  The special forms `inf`/`nan`/underscore separators and IEEE
  rounding of very long literals are outside the model.
* A CSV row as produced by `csv.DictReader` is an association list from
  header names to field strings (`RawRow`); a header absent from a row
  stands for Python `None`.
* A table is a list of rows, a row a list of `Value`s ordered as in
  `col_map`.  `INSERT OR REPLACE` removes the rows conflicting with the
  incoming row (same primary key; for `customers` also same non-NULL
  `email`, per the `UNIQUE` constraint) and appends the new row.
* The model covers runs in which the store raises no error; the
  foreign-key constraints switched on by `PRAGMA foreign_keys = ON` are
  modelled by the `fkOk` predicate on states, and a state with
  `fkOk = false` is one the real store would have rejected with an
  `IntegrityError` during loading.
* File-system glue (paths, `ensure_dir`, WAL pragmas, printing, writing
  `customer_ltv.csv`) is outside the model; the optional LTV report is the
  `report` component of the run state.
-/

namespace Ecom

/-- Exact fraction `num / den` with `den` a positive natural by
construction; kept unnormalised so that all arithmetic reduces in the
kernel. -/
structure Frac where
  num : Int
  den : Nat
deriving DecidableEq

namespace Frac

/-- Embed an integer. -/
def ofInt (i : Int) : Frac := ⟨i, 1⟩

/-- Exact addition (no normalisation). -/
def add (a b : Frac) : Frac := ⟨a.num * b.den + b.num * a.den, a.den * b.den⟩

/-- Sum of a list of fractions. -/
def sumL (l : List Frac) : Frac := l.foldl add (ofInt 0)

/-- Semantic equality by cross-multiplication. -/
def eqb (a b : Frac) : Bool := a.num * (b.den : Int) == b.num * (a.den : Int)

/-- Semantic order by cross-multiplication (for positive denominators). -/
def leb (a b : Frac) : Bool := decide (a.num * (b.den : Int) ≤ b.num * (a.den : Int))

/-- Rational value of a fraction. -/
def toQ (f : Frac) : ℚ := (f.num : ℚ) / (f.den : ℚ)

/-- Truncation toward zero, the behaviour of Python `int(float(...))` and
of SQLite integer division. -/
def trunc (f : Frac) : Int := f.num.tdiv f.den

end Frac

/-- Rounding of `r / d` (with `d > 0`) to the nearest integer, halves away
from zero — the rounding used by SQLite `ROUND`. -/
def roundAway (r : Int) (d : Nat) : Int :=
  if 0 ≤ r then (2 * r + d).fdiv (2 * d) else -((2 * (-r) + d).fdiv (2 * d))

/-- Round a fraction to 2 decimals, halves away from zero, with canonical
denominator 100 — `ROUND(x, 2)`. -/
def Frac.round2 (f : Frac) : Frac := ⟨roundAway (100 * f.num) f.den, 100⟩

/-! Decimal parsing, modelling Python `float(s)`. -/

/-- Whitespace accepted around a Python float literal. -/
def isSpace (c : Char) : Bool := c = ' ' || c = '\t' || c = '\n' || c = '\r'

/-- Numeric value of a digit character. -/
def digVal (c : Char) : Nat := c.toNat - 48

/-- All characters are decimal digits. -/
def allDigits (l : List Char) : Bool := l.all Char.isDigit

/-- Natural number denoted by a digit string. -/
def natOfDigits (l : List Char) : Nat := l.foldl (fun a c => a * 10 + digVal c) 0

/-- Strip one optional leading sign, returning whether it was a minus. -/
def splitSign : List Char → Bool × List Char
  | '+' :: t => (false, t)
  | '-' :: t => (true, t)
  | l => (false, l)

/-- Parse an unsigned mantissa `digits [. digits]` / `. digits`, returning
the digits' value and the number of fractional digits. -/
def parseMantissa (l : List Char) : Option (Nat × Nat) :=
  let ip := l.takeWhile (fun c => c ≠ '.')
  match l.dropWhile (fun c => c ≠ '.') with
  | [] => if !ip.isEmpty && allDigits ip then some (natOfDigits ip, 0) else none
  | _ :: fp =>
    if (!ip.isEmpty || !fp.isEmpty) && allDigits ip && allDigits fp then
      some (natOfDigits (ip ++ fp), fp.length)
    else none

/-- Parse a signed exponent. -/
def parseExp (l : List Char) : Option Int :=
  let (neg, d) := splitSign l
  if !d.isEmpty && allDigits d then
    some (if neg then -(natOfDigits d : Int) else (natOfDigits d : Int))
  else none

/-- Fraction `n * 10 ^ ex / 10 ^ fd`. -/
def Frac.ofScientific (n : Int) (fd : Nat) (ex : Int) : Frac :=
  if 0 ≤ ex then ⟨n * 10 ^ ex.toNat, 10 ^ fd⟩ else ⟨n, 10 ^ fd * 10 ^ (-ex).toNat⟩

/-- Python `float(s)` on finite decimal/scientific literals; `none` models
`ValueError`. -/
def parseDec (s : String) : Option Frac :=
  let l := ((s.data.dropWhile isSpace).reverse.dropWhile isSpace).reverse
  let (neg, l1) := splitSign l
  let m := l1.takeWhile (fun c => c ≠ 'e' && c ≠ 'E')
  let expPart : Option Int :=
    match l1.dropWhile (fun c => c ≠ 'e' && c ≠ 'E') with
    | [] => some 0
    | _ :: t => parseExp t
  match parseMantissa m, expPart with
  | some (n, fd), some ex =>
    some (Frac.ofScientific (if neg then -(n : Int) else (n : Int)) fd ex)
  | _, _ => none

/-- SQLite storage value. -/
inductive Value where
  | null : Value
  | int : Int → Value
  | real : Frac → Value
  | text : String → Value
deriving DecidableEq

namespace Value

/-- The value is NULL. -/
def isNull : Value → Bool
  | .null => true
  | _ => false

/-- The value has INTEGER storage class. -/
def isInt : Value → Bool
  | .int _ => true
  | _ => false

/-- The value has a numeric (INTEGER or REAL) storage class. -/
def isNum : Value → Bool
  | .int _ => true
  | .real _ => true
  | _ => false

/-- Integer content, 0 otherwise. -/
def intOr0 : Value → Int
  | .int i => i
  | _ => 0

end Value

/-- Numeric content of a value as used by SQLite aggregates: text is
coerced to a number (0 when unparseable), NULL to 0. -/
def toFrac0 : Value → Frac
  | .int i => Frac.ofInt i
  | .real q => q
  | .text s => (parseDec s).getD (Frac.ofInt 0)
  | .null => Frac.ofInt 0

/-- SQLite `=` comparison between stored values: NULL equals nothing,
numeric classes compare by value, TEXT compares bytewise, numeric and
TEXT never compare equal. -/
def sqlEq : Value → Value → Bool
  | .int a, .int b => a == b
  | .int a, .real q => Frac.eqb (Frac.ofInt a) q
  | .real q, .int a => Frac.eqb q (Frac.ofInt a)
  | .real p, .real q => Frac.eqb p q
  | .text s, .text t => s == t
  | _, _ => false

/-- Equality as used by `GROUP BY` and `DISTINCT`: like `sqlEq` except
that NULLs collate together. -/
def groupEq : Value → Value → Bool
  | .null, .null => true
  | a, b => sqlEq a b

/-- Bytewise (BINARY collation) strict order on strings, modelled on the
character lists. -/
def charListLt : List Char → List Char → Bool
  | [], [] => false
  | [], _ :: _ => true
  | _ :: _, [] => false
  | a :: s, b :: t => if a < b then true else if a = b then charListLt s t else false

/-- Storage-class rank in the SQLite total order: NULL < numeric < TEXT. -/
def valClass : Value → Nat
  | .null => 0
  | .int _ => 1
  | .real _ => 1
  | .text _ => 2

/-- SQLite total order on stored values (used by `MAX`). -/
def valLe (a b : Value) : Bool :=
  if valClass a ≠ valClass b then decide (valClass a < valClass b)
  else
    match a, b with
    | .int x, .int y => decide (x ≤ y)
    | .int x, .real q => Frac.leb (Frac.ofInt x) q
    | .real q, .int x => Frac.leb q (Frac.ofInt x)
    | .real p, .real q => Frac.leb p q
    | .text s, .text t => !charListLt t.data s.data
    | _, _ => true

/-- SQLite `MAX` aggregate: NULLs are ignored (NULL is least), an empty
input yields NULL. -/
def sqlMax (vs : List Value) : Value :=
  vs.foldl (fun acc v => if valLe acc v then v else acc) Value.null

/-- First-occurrence deduplication modulo `sqlEq` (structural recursion so
that it evaluates in the kernel). -/
def dedupSqlAux : List Value → List Value → List Value
  | _, [] => []
  | seen, v :: t =>
    if seen.any (fun w => sqlEq w v) then dedupSqlAux seen t
    else v :: dedupSqlAux (v :: seen) t

/-- SQLite `COUNT(DISTINCT e)`: NULLs ignored, values compared by `=`. -/
def countDistinct (vs : List Value) : Nat :=
  (dedupSqlAux [] (vs.filter (fun v => !v.isNull))).length

/-- SQLite `SUM`: NULLs ignored, NULL on empty input, INTEGER result when
every summed value is an INTEGER, REAL otherwise. -/
def sqlSum (vs : List Value) : Value :=
  if (vs.filter (fun v => !v.isNull)).isEmpty then Value.null
  else if (vs.filter (fun v => !v.isNull)).all Value.isInt then
    Value.int ((vs.filter (fun v => !v.isNull)).map Value.intOr0).sum
  else Value.real (Frac.sumL ((vs.filter (fun v => !v.isNull)).map toFrac0))

/-- SQLite `ROUND(x, 2)`: NULL on NULL, otherwise a REAL rounded to two
decimals (text coerced numerically). -/
def sqlRound2 : Value → Value
  | .null => .null
  | .int i => .real (Frac.round2 (Frac.ofInt i))
  | .real q => .real (Frac.round2 q)
  | .text s => .real (Frac.round2 ((parseDec s).getD (Frac.ofInt 0)))

/-- SQLite division of a `SUM` result by a positive `COUNT`: integer
division (truncating) when the sum is an INTEGER, exact otherwise, NULL
propagating. -/
def sqlDivCnt (s : Value) (n : Nat) : Value :=
  match s with
  | .null => .null
  | .int i => .int (i.tdiv n)
  | .real q => .real ⟨q.num, q.den * n⟩
  | .text _ => .null

/-! Rows, tables, type coercion and loading (`read_csv_rows`,
the type-conversion loop and `insert_rows` of `ingest`). -/

/-- A CSV row from `csv.DictReader`: header name to field text; an absent
header models Python `None`. -/
abbrev RawRow := List (String × String)

/-- A stored table row, ordered as in `col_map`. -/
abbrev Row := List Value

/-- A stored table. -/
abbrev Table := List Row

/-- Column access with NULL default. -/
def vget (r : Row) (i : Nat) : Value := List.getD r i Value.null

/-- The columns coerced to integers by the type-conversion loop of
`ingest` (note: `review_id` is not among them). -/
def intCols : List String :=
  ["customer_id", "product_id", "order_id", "order_item_id", "rating", "quantity"]

/-- The columns coerced to floats by the type-conversion loop of
`ingest`. -/
def floatCols : List String := ["price", "unit_price", "line_total", "total"]

/-- Per-field coercion: empty text is falsy and skipped; integer columns
get `int(float(s))`, float columns `float(s)`; on `ValueError` the text is
kept; other columns stay text. -/
def coerceField (c : String) (s : String) : Value :=
  if s = "" then Value.text s
  else if c ∈ intCols then
    match parseDec s with
    | some f => Value.int f.trunc
    | none => Value.text s
  else if c ∈ floatCols then
    match parseDec s with
    | some f => Value.real f
    | none => Value.text s
  else Value.text s

/-- Field lookup in a raw row. -/
def lookupRaw (r : RawRow) (c : String) : Option String :=
  (r.find? (fun p => p.1 = c)).map (fun p => p.2)

/-- Coerce one raw row and project it onto a table's column list — the
per-row work of the type-conversion loop followed by
`[row.get(c, None) for c in columns]` in `insert_rows`. -/
def projectRow (cols : List String) (r : RawRow) : Row :=
  cols.map (fun c =>
    match lookupRaw r c with
    | none => Value.null
    | some s => coerceField c s)

/-- One `INSERT OR REPLACE`: drop the rows conflicting with the incoming
row, append the incoming row. -/
def insertRow (conf : Row → Row → Bool) (t : Table) (r : Row) : Table :=
  t.filter (fun x => !conf r x) ++ [r]

/-- Batch upsert: `executemany` of `INSERT OR REPLACE` over a row batch. -/
def insertAll (conf : Row → Row → Bool) (rows : List Row) (t : Table) : Table :=
  rows.foldl (insertRow conf) t

/-- Conflict on the primary key (column 0 of every table). -/
def confPK (r t : Row) : Bool := sqlEq (vget r 0) (vget t 0)

/-- Conflict for `customers`: primary key, or the `UNIQUE` email column
(column 2); NULL emails never conflict (`sqlEq` is false on NULL). -/
def confCust (r t : Row) : Bool := confPK r t || sqlEq (vget r 2) (vget t 2)

/-- Load one table from its optional CSV: a missing file (`none`) or an
empty row list is a skip that leaves the store untouched. -/
def loadTable (conf : Row → Row → Bool) (cols : List String)
    (src : Option (List RawRow)) (t : Table) : Table :=
  match src with
  | none => t
  | some rows =>
    if rows.isEmpty then t else insertAll conf (rows.map (projectRow cols)) t

/-- Column lists of `col_map`. -/
def colsCustomers : List String := ["customer_id", "name", "email", "address", "join_date"]

/-- Column list of `products`. -/
def colsProducts : List String := ["product_id", "name", "category", "price", "sku"]

/-- Column list of `orders`. -/
def colsOrders : List String := ["order_id", "customer_id", "order_date", "total", "status"]

/-- Column list of `order_items`. -/
def colsItems : List String :=
  ["order_item_id", "order_id", "product_id", "quantity", "unit_price", "line_total"]

/-- Column list of `reviews`. -/
def colsReviews : List String :=
  ["review_id", "product_id", "customer_id", "rating", "review_text", "review_date"]

/-! The order-total recomputation (`UPDATE orders SET total = ... WHERE
order_id IN (SELECT DISTINCT order_id FROM order_items)`). -/

/-- The item rows of an order, per the correlated subquery's
`WHERE order_items.order_id = orders.order_id`. -/
def matchingItems (items : Table) (o : Row) : Table :=
  items.filter (fun it => sqlEq (vget it 1) (vget o 0))

/-- Effect of the `UPDATE` on one order row: rows whose `order_id` is in
the distinct item `order_id`s get `total := ROUND(SUM(line_total), 2)`
over their items, others are untouched. -/
def updRow (items : Table) (o : Row) : Row :=
  if items.any (fun it => sqlEq (vget o 0) (vget it 1)) then
    o.set 3 (sqlRound2 (sqlSum ((matchingItems items o).map (fun it => vget it 5))))
  else o

/-- The whole `UPDATE` statement. -/
def updateTotals (orders items : Table) : Table := orders.map (updRow items)

/-! The LTV report query. -/

/-- The completed orders joined to one customer row, per the `LEFT JOIN`
condition `o.customer_id = c.customer_id AND o.status = 'completed'`. -/
def completedFor (orders : Table) (c : Row) : Table :=
  orders.filter (fun o =>
    sqlEq (vget o 1) (vget c 0) && sqlEq (vget o 4) (Value.text "completed"))

/-- Key equality of `GROUP BY c.customer_id, c.name`. -/
def keyEqB (a b : Row) : Bool := groupEq (vget a 0) (vget b 0) && groupEq (vget a 1) (vget b 1)

/-- First customer row of each `GROUP BY` group, in first-occurrence
order. -/
def leadersAux : List Row → List Row → List Row
  | _, [] => []
  | seen, c :: t =>
    if seen.any (fun p => keyEqB p c) then leadersAux seen t
    else c :: leadersAux (c :: seen) t

/-- Group leaders of a customers table. -/
def leaders (cs : List Row) : List Row := leadersAux [] cs

/-- One output row of the LTV query for the group led by `c`: customer id
and name, `COALESCE(SUM(o.total), 0)`, `COUNT(DISTINCT o.order_id)`, the
guarded average, `MAX(o.order_date)`. -/
def ltvRow (orders : Table) (cs : List Row) (c : Row) : Row :=
  let os := (cs.filter (fun m => keyEqB m c)).flatMap (completedFor orders)
  let s := sqlSum (os.map (fun o => vget o 3))
  let cnt := countDistinct (os.map (fun o => vget o 0))
  [vget c 0, vget c 1,
   (match s with | .null => Value.int 0 | v => v),
   Value.int cnt,
   (if cnt = 0 then Value.int 0 else sqlRound2 (sqlDivCnt s cnt)),
   sqlMax (os.map (fun o => vget o 2))]

/-- The LTV result set before `ORDER BY`. -/
def ltvRows (cs orders : Table) : Table := (leaders cs).map (ltvRow orders cs)

/-- Report ordering `ORDER BY lifetime_spend DESC` (SQLite DESC order on stored values). -/
def spendOrder (a b : Row) : Prop := valLe (vget b 2) (vget a 2) = true

instance : DecidableRel spendOrder := fun a b => instDecidableEqBool (valLe (vget b 2) (vget a 2)) true

/-- The LTV report: aggregated rows sorted by lifetime spend
descending. -/
def ltvReport (cs orders : Table) : Table :=
  List.insertionSort spendOrder (ltvRows cs orders)

/-! The whole ingestion run. -/

/-- The database: the five tables. -/
structure DB where
  customers : Table
  products : Table
  orders : Table
  order_items : Table
  reviews : Table
deriving DecidableEq

/-- The freshly created empty store. -/
def emptyDB : DB := ⟨[], [], [], [], []⟩

/-- The five optional CSV sources (`none` models a missing file). -/
structure Csvs where
  customers : Option (List RawRow)
  products : Option (List RawRow)
  orders : Option (List RawRow)
  order_items : Option (List RawRow)
  reviews : Option (List RawRow)

/-- Rows of an optional CSV. -/
def rowsOf (src : Option (List RawRow)) : List RawRow := src.getD []

/-- The table identifiers, in the fixed loading order of `paths`. -/
inductive TableId where
  | customers | products | orders | order_items | reviews
deriving DecidableEq

/-- One step of `ingest` after the store is opened. -/
inductive Step where
  | load : TableId → Step
  | updTotals : Step
  | writeLtv : Step
deriving DecidableEq

/-- A step is a table load. -/
def isLoad : Step → Bool
  | .load _ => true
  | _ => false

/-- State of a run: the store plus the optional report artifact. -/
structure RunState where
  db : DB
  report : Option Table
deriving DecidableEq

/-- Semantics of one step. -/
def applyStep (csvs : Csvs) (st : RunState) : Step → RunState
  | .load .customers =>
    { st with db := { st.db with
        customers := loadTable confCust colsCustomers csvs.customers st.db.customers } }
  | .load .products =>
    { st with db := { st.db with
        products := loadTable confPK colsProducts csvs.products st.db.products } }
  | .load .orders =>
    { st with db := { st.db with
        orders := loadTable confPK colsOrders csvs.orders st.db.orders } }
  | .load .order_items =>
    { st with db := { st.db with
        order_items := loadTable confPK colsItems csvs.order_items st.db.order_items } }
  | .load .reviews =>
    { st with db := { st.db with
        reviews := loadTable confPK colsReviews csvs.reviews st.db.reviews } }
  | .updTotals =>
    { st with db := { st.db with
        orders := updateTotals st.db.orders st.db.order_items } }
  | .writeLtv =>
    { st with report := some (ltvReport st.db.customers st.db.orders) }

/-- The straight-line step sequence of `ingest`: the five loads in the
fixed `paths` order, the total recomputation, then the optional report. -/
def steps (write_ltv : Bool) : List Step :=
  [.load .customers, .load .products, .load .orders, .load .order_items, .load .reviews,
   .updTotals] ++ (if write_ltv then [.writeLtv] else [])

/-- Run a step list. -/
def runSteps (csvs : Csvs) (st : RunState) (l : List Step) : RunState :=
  l.foldl (applyStep csvs) st

/-- The store `ingest` starts from: `--replace` removes the database file
first, which is the empty store. -/
def initDB (replace : Bool) (d0 : DB) : DB := if replace then emptyDB else d0

/-- The whole `ingest(data_dir, db_path, replace, write_ltv)` run against
a store holding `d0`. -/
def ingest (csvs : Csvs) (d0 : DB) (replace write_ltv : Bool) : RunState :=
  runSteps csvs ⟨initDB replace d0, none⟩ (steps write_ltv)

/-- The five loads (the state of the store when the `UPDATE` runs). -/
def dbAfterLoads (csvs : Csvs) (d : DB) : DB :=
  { customers := loadTable confCust colsCustomers csvs.customers d.customers
    products := loadTable confPK colsProducts csvs.products d.products
    orders := loadTable confPK colsOrders csvs.orders d.orders
    order_items := loadTable confPK colsItems csvs.order_items d.order_items
    reviews := loadTable confPK colsReviews csvs.reviews d.reviews }

/-- The store at the end of a run. -/
def pipelineDB (csvs : Csvs) (d : DB) : DB :=
  let d1 := dbAfterLoads csvs d
  { d1 with orders := updateTotals d1.orders d1.order_items }

/-! Foreign keys: the `REFERENCES` clauses of the schema, enforced by
`PRAGMA foreign_keys = ON`.  A run whose loads produce a state violating
them is rejected by the real store (`IntegrityError`) instead of
completing. -/

/-- Every non-NULL child value has a matching parent row. -/
def fkOkTable (child : Table) (childCol : Nat) (parent : Table) (parentCol : Nat) : Bool :=
  child.all (fun r =>
    (vget r childCol).isNull || parent.any (fun p => sqlEq (vget p parentCol) (vget r childCol)))

/-- All five declared foreign keys hold. -/
def fkOk (d : DB) : Bool :=
  fkOkTable d.orders 1 d.customers 0 &&
  fkOkTable d.order_items 1 d.orders 0 &&
  fkOkTable d.order_items 2 d.products 0 &&
  fkOkTable d.reviews 1 d.products 0 &&
  fkOkTable d.reviews 2 d.customers 0

/-! Basic facts about value comparison. -/

theorem Frac.eqb_symm (a b : Frac) : Frac.eqb a b = Frac.eqb b a := by
  unfold Frac.eqb
  apply Bool.eq_iff_iff.mpr
  simp only [beq_iff_eq]
  exact eq_comm

theorem sqlEq_refl {v : Value} (h : v ≠ Value.null) : sqlEq v v = true := by
  cases v with
  | null => exact absurd rfl h
  | int i => exact beq_self_eq_true i
  | real q => exact beq_self_eq_true _
  | text s => exact beq_self_eq_true s

theorem sqlEq_symm (a b : Value) : sqlEq a b = sqlEq b a := by
  cases a <;> cases b <;> simp [sqlEq, Frac.eqb_symm, eq_comm]

theorem groupEq_refl (v : Value) : groupEq v v = true := by
  cases v with
  | null => rfl
  | int i => simp [groupEq, sqlEq]
  | real q => simp [groupEq, sqlEq, Frac.eqb]
  | text s => simp [groupEq, sqlEq]

theorem groupEq_symm (a b : Value) : groupEq a b = groupEq b a := by
  cases a <;> cases b <;> simp [groupEq, sqlEq_symm]

theorem keyEqB_refl (r : Row) : keyEqB r r = true := by
  simp [keyEqB, groupEq_refl]

theorem keyEqB_symm (a b : Row) : keyEqB a b = keyEqB b a := by
  simp [keyEqB, groupEq_symm]

/-! Generic facts about the upsert loop `insertAll`. -/

/-- The filter that keeps the rows of the prior table surviving a whole
batch: no batch row conflicts with them. -/
def survives (conf : Row → Row → Bool) (rows : List Row) (t : Row) : Bool :=
  rows.all (fun r => !conf r t)

theorem insertRow_append (conf : Row → Row → Bool) (r : Row) (X Y : Table) :
    insertRow conf (X ++ Y) r = X.filter (fun x => !conf r x) ++ insertRow conf Y r := by
  simp [insertRow, List.filter_append, List.append_assoc]

/-- Batch upsert splits into the surviving prior rows followed by the
outcome of the batch on an empty table. -/
theorem insertAll_decomp (conf : Row → Row → Bool) (rows : List Row) :
    ∀ T : Table,
      insertAll conf rows T = T.filter (survives conf rows) ++ insertAll conf rows [] := by
  induction rows with
  | nil =>
    intro T
    show T = T.filter (survives conf []) ++ ([] : Table)
    rw [List.append_nil]
    exact (List.filter_eq_self.mpr fun a _ => rfl).symm
  | cons r rs ih =>
    intro T
    show insertAll conf rs (insertRow conf T r) = _
    rw [ih (insertRow conf T r)]
    have h2 : insertAll conf (r :: rs) ([] : Table) = insertAll conf rs [r] := rfl
    rw [h2, ih [r]]
    have h1 : (insertRow conf T r).filter (survives conf rs) =
        T.filter (survives conf (r :: rs)) ++ [r].filter (survives conf rs) := by
      show (T.filter (fun x => !conf r x) ++ [r]).filter (survives conf rs) = _
      rw [List.filter_append, List.filter_filter]
      congr 1
      apply List.filter_congr
      intro x _
      simp [survives, Bool.and_comm]
    rw [h1, List.append_assoc]

theorem mem_insertAll (conf : Row → Row → Bool) (rows : List Row) :
    ∀ (T : Table) (x : Row), x ∈ insertAll conf rows T → x ∈ T ∨ x ∈ rows := by
  induction rows with
  | nil => intro T x hx; exact Or.inl hx
  | cons r rs ih =>
    intro T x hx
    rcases ih (insertRow conf T r) x hx with h | h
    · rcases List.mem_append.mp h with h1 | h1
      · exact Or.inl (List.mem_filter.mp h1).1
      · simp only [List.mem_singleton] at h1
        exact Or.inr (by simp [h1])
    · exact Or.inr (List.mem_cons_of_mem r h)

theorem mem_insertAll_nil (conf : Row → Row → Bool) (rows : List Row) (x : Row)
    (hx : x ∈ insertAll conf rows []) : x ∈ rows := by
  rcases mem_insertAll conf rows [] x hx with h | h
  · cases h
  · exact h

/-- With a reflexive conflict on the batch, nothing produced by the batch
survives a rerun of the batch. -/
theorem survives_insertAll_nil (conf : Row → Row → Bool) (rows : List Row)
    (hrefl : ∀ r ∈ rows, conf r r = true) :
    (insertAll conf rows []).filter (survives conf rows) = [] := by
  rw [List.filter_eq_nil_iff]
  intro x hx
  have hm : x ∈ rows := mem_insertAll_nil conf rows x hx
  simp only [survives, List.all_eq_true, Bool.not_eq_true']
  intro hall
  have := hall x hm
  rw [hrefl x hm] at this
  cases this

/-- Rerunning the batch on its own output changes nothing. -/
theorem insertAll_idem (conf : Row → Row → Bool) (rows : List Row)
    (hrefl : ∀ r ∈ rows, conf r r = true) (T : Table) :
    insertAll conf rows (insertAll conf rows T) = insertAll conf rows T := by
  rw [insertAll_decomp conf rows T, insertAll_decomp conf rows
    (T.filter (survives conf rows) ++ insertAll conf rows []),
    List.filter_append, List.filter_filter]
  rw [survives_insertAll_nil conf rows hrefl]
  have h : List.filter (fun a => survives conf rows a && survives conf rows a) T =
      List.filter (survives conf rows) T := by
    apply List.filter_congr; intro x _; rw [Bool.and_self]
  rw [h, List.append_nil]

/-- Upserting a batch into a mapped table, when the map preserves the
conflict test, maps the surviving rows and leaves the batch outcome
untouched. -/
theorem insertAll_map (conf : Row → Row → Bool) (f : Row → Row)
    (hf : ∀ r t, conf r (f t) = conf r t) (rows : List Row) (T : Table) :
    insertAll conf rows (T.map f) =
      (T.filter (survives conf rows)).map f ++ insertAll conf rows [] := by
  rw [insertAll_decomp conf rows (T.map f), List.filter_map]
  congr 2
  apply List.filter_congr
  intro x _
  simp only [Function.comp_apply, survives]
  apply Bool.eq_iff_iff.mpr
  simp only [List.all_eq_true]
  constructor
  · intro h r hr; have := h r hr; rwa [hf r x] at this
  · intro h r hr; have := h r hr; rwa [← hf r x] at this

/-! Facts about the order-total update. -/

theorem vget_set_ne (r : Row) (v : Value) {i j : Nat} (h : i ≠ j) :
    vget (r.set i v) j = vget r j := by
  simp [vget, List.getD_eq_getElem?_getD, List.getElem?_set_ne h]

theorem vget_set_self (r : Row) (v : Value) {i : Nat} (h : i < r.length) :
    vget (r.set i v) i = v := by
  simp [vget, List.getD_eq_getElem?_getD, List.getElem?_set_self h]

theorem updRow_pk (I : Table) (o : Row) : vget (updRow I o) 0 = vget o 0 := by
  unfold updRow
  split
  · exact vget_set_ne o _ (by decide)
  · rfl

theorem matchingItems_updRow (I J : Table) (o : Row) :
    matchingItems I (updRow J o) = matchingItems I o := by
  unfold matchingItems
  apply List.filter_congr
  intro it _
  rw [updRow_pk]

theorem updRow_cond (I : Table) (o : Row) :
    (I.any fun it => sqlEq (vget (updRow I o) 0) (vget it 1)) =
      (I.any fun it => sqlEq (vget o 0) (vget it 1)) := by
  rw [updRow_pk]

theorem updRow_idem (I : Table) (o : Row) : updRow I (updRow I o) = updRow I o := by
  by_cases h : (I.any fun it => sqlEq (vget o 0) (vget it 1)) = true
  · have h2 : updRow I o =
        o.set 3 (sqlRound2 (sqlSum ((matchingItems I o).map fun it => vget it 5))) := by
      unfold updRow; rw [if_pos h]
    conv_lhs => rw [updRow]
    rw [updRow_cond, if_pos h, matchingItems_updRow]
    rw [h2, List.set_set]
  · have h2 : updRow I o = o := by unfold updRow; rw [if_neg h]
    rw [h2, h2]

theorem confPK_updRow (I : Table) (r t : Row) : confPK r (updRow I t) = confPK r t := by
  simp [confPK, updRow_pk]

theorem updateTotals_idem (O I : Table) :
    updateTotals (updateTotals O I) I = updateTotals O I := by
  simp only [updateTotals, List.map_map]
  apply List.map_congr_left
  intro o _
  exact updRow_idem I o

/-! Idempotence of the per-table load and its interplay with the total
update. -/

/-- Reflexivity of the conflict test on rows whose primary key is not
NULL. -/
theorem conf_refl_of_pk {conf : Row → Row → Bool}
    (hc : ∀ r t, confPK r t = true → conf r t = true)
    {r : Row} (h : vget r 0 ≠ Value.null) : conf r r = true := by
  apply hc
  simp [confPK, sqlEq_refl h]

theorem loadTable_idem (conf : Row → Row → Bool) (cols : List String)
    (src : Option (List RawRow)) (t : Table)
    (hrefl : ∀ rr ∈ rowsOf src, conf (projectRow cols rr) (projectRow cols rr) = true) :
    loadTable conf cols src (loadTable conf cols src t) = loadTable conf cols src t := by
  cases src with
  | none => rfl
  | some rows =>
    by_cases he : rows.isEmpty
    · simp [loadTable, he]
    · simp only [loadTable, he, if_neg, Bool.false_eq_true, not_false_eq_true, if_false]
      apply insertAll_idem
      intro r hr
      rcases List.mem_map.mp hr with ⟨rr, hrr, hproj⟩
      subst hproj
      exact hrefl rr hrr

/-- Reloading the orders CSV over updated totals and re-updating gives the
same table as loading and updating once. -/
theorem orders_load_update_idem (src : Option (List RawRow)) (O I : Table)
    (hrefl : ∀ rr ∈ rowsOf src,
      confPK (projectRow colsOrders rr) (projectRow colsOrders rr) = true) :
    updateTotals
        (loadTable confPK colsOrders src (updateTotals (loadTable confPK colsOrders src O) I))
        I =
      updateTotals (loadTable confPK colsOrders src O) I := by
  cases src with
  | none => exact updateTotals_idem O I
  | some rows =>
    by_cases he : rows.isEmpty
    · simp only [loadTable, he, if_true]
      exact updateTotals_idem O I
    · simp only [loadTable, he, Bool.false_eq_true, if_false]
      set R := rows.map (projectRow colsOrders) with hR
      have hreflR : ∀ r ∈ R, confPK r r = true := by
        intro r hr
        rcases List.mem_map.mp hr with ⟨rr, hrr, hproj⟩
        subst hproj
        exact hrefl rr hrr
      have hmap : insertAll confPK R (updateTotals (insertAll confPK R O) I) =
          ((insertAll confPK R O).filter (survives confPK R)).map (updRow I) ++
            insertAll confPK R [] := by
        simp only [updateTotals]
        exact insertAll_map confPK (updRow I) (fun r t => confPK_updRow I r t) R
          (insertAll confPK R O)
      have hfil : (insertAll confPK R O).filter (survives confPK R) =
          O.filter (survives confPK R) := by
        rw [insertAll_decomp confPK R O, List.filter_append, List.filter_filter,
          survives_insertAll_nil confPK R hreflR, List.append_nil]
        apply List.filter_congr
        intro x _
        rw [Bool.and_self]
      rw [hmap, hfil]
      conv_rhs => rw [insertAll_decomp confPK R O]
      simp only [updateTotals, List.map_append, List.map_map]
      congr 1
      apply List.map_congr_left
      intro o _
      exact updRow_idem I o

/-! Unfolding the run. -/

theorem ingest_db (csvs : Csvs) (d0 : DB) (rep b : Bool) :
    (ingest csvs d0 rep b).db = pipelineDB csvs (initDB rep d0) := by
  cases b <;> rfl

theorem ingest_report_some (csvs : Csvs) (d0 : DB) (rep : Bool) :
    (ingest csvs d0 rep true).report =
      some (ltvReport (pipelineDB csvs (initDB rep d0)).customers
        (pipelineDB csvs (initDB rep d0)).orders) := rfl

theorem ingest_report_none (csvs : Csvs) (d0 : DB) (rep : Bool) :
    (ingest csvs d0 rep false).report = none := rfl

/-- Rows loaded into an empty store all come from the CSV batch. -/
theorem mem_loadTable_empty (conf : Row → Row → Bool) (cols : List String)
    (src : Option (List RawRow)) (r : Row) (hr : r ∈ loadTable conf cols src []) :
    ∃ rr ∈ rowsOf src, r = projectRow cols rr := by
  cases src with
  | none => cases hr
  | some rows =>
    by_cases he : rows.isEmpty
    · rw [loadTable, if_pos he] at hr
      cases hr
    · rw [loadTable, if_neg he] at hr
      have hm := mem_insertAll_nil conf _ r hr
      rcases List.mem_map.mp hm with ⟨rr, hrr, hp⟩
      exact ⟨rr, hrr, hp.symm⟩

/-- Loaded tables keep a lower bound on row width when the column list
and the prior rows have it. -/
theorem length_loadTable (conf : Row → Row → Bool) (cols : List String)
    (src : Option (List RawRow)) (t : Table) (n : Nat)
    (ht : ∀ r ∈ t, n ≤ r.length) (hcols : n ≤ cols.length) :
    ∀ r ∈ loadTable conf cols src t, n ≤ r.length := by
  intro r hr
  cases src with
  | none => exact ht r hr
  | some rows =>
    by_cases he : rows.isEmpty
    · rw [loadTable, if_pos he] at hr
      exact ht r hr
    · rw [loadTable, if_neg he] at hr
      rcases mem_insertAll conf _ t r hr with h | h
      · exact ht r h
      · rcases List.mem_map.mp h with ⟨rr, _, hp⟩
        subst hp
        simpa [projectRow] using hcols

/-! Claim theorems. -/

/-- C9: in every ingestion invocation the `Order.total` recomputation step
appears exactly once in the executed step sequence, strictly after every
table load and strictly before any LTV report generation. -/
theorem c9_update_once_after_loads_before_report : ∀ b : Bool,
    (∀ (csvs : Csvs) (d0 : DB) (rep : Bool),
      ingest csvs d0 rep b = runSteps csvs ⟨initDB rep d0, none⟩ (steps b)) ∧
    (steps b).count Step.updTotals = 1 ∧
    (∀ s ∈ (steps b).drop ((steps b).indexOf Step.updTotals + 1), isLoad s = false) ∧
    Step.writeLtv ∉ (steps b).take ((steps b).indexOf Step.updTotals + 1) := by
  intro b
  refine ⟨fun _ _ _ => rfl, ?_⟩
  cases b <;> decide

/-- Witness for C9 at the concrete flag value `true`: one update step,
with the load-free tail and the report kept after it. -/
theorem c9_update_once_after_loads_before_report_witness :
    (steps true).count Step.updTotals = 1 ∧
    isLoad Step.writeLtv = false ∧
    Step.writeLtv ∉ (steps true).take ((steps true).indexOf Step.updTotals + 1) :=
  ⟨(c9_update_once_after_loads_before_report true).2.1,
   (c9_update_once_after_loads_before_report true).2.2.1 Step.writeLtv (by decide),
   (c9_update_once_after_loads_before_report true).2.2.2⟩

/-- C5 counterexample: with `customers.csv` missing but `orders.csv`
present and referencing customer 1, the loaded orders table violates the
declared foreign key `orders.customer_id REFERENCES customers` — under
`PRAGMA foreign_keys = ON` the real store raises an `IntegrityError`
while loading the orders batch, so the run aborts instead of completing
without error. -/
def cx5Orders : List RawRow :=
  [[("order_id", "1"), ("customer_id", "1"), ("order_date", "2024-01-01"),
    ("total", "10.00"), ("status", "completed")]]

/-- CSV set for the C5 counterexample: only `orders.csv` exists. -/
def cx5Csvs : Csvs := ⟨none, none, some cx5Orders, none, none⟩

/-- C5 fails as stated: skipping a missing parent CSV can leave the
loaded child rows without their referenced parents, which the store's
foreign-key enforcement rejects rather than letting the run complete. -/
theorem c5_counterexample :
    fkOk (ingest cx5Csvs emptyDB false false).db = false ∧
    (ingest cx5Csvs emptyDB false false).db.orders ≠ [] := by decide

/-- Replace a CSV set's reviews source. -/
def withReviews (csvs : Csvs) (src : Option (List RawRow)) : Csvs :=
  { csvs with reviews := src }

/-- C5 (amended): a missing CSV, or one with zero data rows, is skipped
with no effect on its table while the other tables load exactly as they
would otherwise; in particular with `reviews.csv` absent (the safe case —
no declared foreign key references a missing parent, since nothing
references `reviews`) the run completes with the other four tables loaded
and the reviews table untouched. -/
theorem c5_skip_amended : ∀ (conf : Row → Row → Bool) (cols : List String)
    (t : Table) (csvs : Csvs) (d0 : DB) (rep b : Bool),
    loadTable conf cols none t = t ∧
    loadTable conf cols (some []) t = t ∧
    ingest (withReviews csvs (some [])) d0 rep b = ingest (withReviews csvs none) d0 rep b ∧
    (ingest (withReviews csvs none) d0 rep b).db.reviews = (initDB rep d0).reviews ∧
    (ingest (withReviews csvs none) d0 rep b).db.customers = (ingest csvs d0 rep b).db.customers ∧
    (ingest (withReviews csvs none) d0 rep b).db.products = (ingest csvs d0 rep b).db.products ∧
    (ingest (withReviews csvs none) d0 rep b).db.orders = (ingest csvs d0 rep b).db.orders ∧
    (ingest (withReviews csvs none) d0 rep b).db.order_items =
      (ingest csvs d0 rep b).db.order_items ∧
    (ingest (withReviews csvs none) d0 rep b).report = (ingest csvs d0 rep b).report := by
  intro conf cols t csvs d0 rep b
  refine ⟨rfl, rfl, ?_, ?_, ?_, ?_, ?_, ?_, ?_⟩ <;> cases rep <;> cases b <;> rfl

/-- Customers CSV for the C2 counterexample and witness. -/
def cx2Customers : List RawRow :=
  [[("customer_id", "1"), ("name", "Alice"), ("email", "alice@example.com"),
    ("address", "1 A St"), ("join_date", "2023-01-01")]]

/-- Products CSV for the C2 counterexample and witness. -/
def cx2Products : List RawRow :=
  [[("product_id", "1"), ("name", "Widget"), ("category", "tools"),
    ("price", "10.00"), ("sku", "SKU-1")]]

/-- Orders CSV row for the C2 counterexample: order 1, loaded total
30.00, customer 1. -/
def cx2OrderRow : RawRow :=
  [("order_id", "1"), ("customer_id", "1"), ("order_date", "2024-01-01"),
   ("total", "30.00"), ("status", "completed")]

/-- Second orders CSV row for the C2 counterexample: order 2, the parent
of the only current item row. -/
def cx2OrderRow2 : RawRow :=
  [("order_id", "2"), ("customer_id", "1"), ("order_date", "2024-01-02"),
   ("total", "5.00"), ("status", "completed")]

/-- Items CSV for the C2 counterexample: its only row belongs to order 2,
so order 1 has no matching rows in `order_items.csv`. -/
def cx2Items : List RawRow :=
  [[("order_item_id", "7"), ("order_id", "2"), ("product_id", "1"),
    ("quantity", "1"), ("unit_price", "5.00"), ("line_total", "5.00")]]

/-- Prior store for the C2 counterexample, as an earlier error-free run
of the same pipeline leaves it (every declared foreign key holds):
customer 1, product 1, orders 1 and 2, and a stale `order_items` row for
order 1 (item-derived total 10.00). -/
def cx2Db0 : DB :=
  ⟨[[Value.int 1, Value.text "Alice", Value.text "alice@example.com", Value.text "1 A St",
     Value.text "2023-01-01"]],
   [[Value.int 1, Value.text "Widget", Value.text "tools", Value.real ⟨1000, 100⟩,
     Value.text "SKU-1"]],
   [[Value.int 1, Value.int 1, Value.text "2023-12-01", Value.real ⟨1000, 100⟩,
     Value.text "completed"],
    [Value.int 2, Value.int 1, Value.text "2023-12-02", Value.real ⟨500, 100⟩,
     Value.text "completed"]],
   [[Value.int 99, Value.int 1, Value.int 1, Value.int 1,
     Value.real ⟨1000, 100⟩, Value.real ⟨1000, 100⟩]],
   []⟩

/-- CSV set for the C2 counterexample: all parents of every loaded row
are present, so the run raises no foreign-key error. -/
def cx2Csvs : Csvs :=
  ⟨some cx2Customers, some cx2Products, some [cx2OrderRow, cx2OrderRow2], some cx2Items, none⟩

/-- C2 fails as stated: order 1 appears in `orders.csv` and has no
matching rows in `order_items.csv`, yet after ingestion into a store
holding a stale item row for order 1 its total is overwritten with the
stale item's rounded sum (10.00) instead of keeping the loaded 30.00 —
the `UPDATE` matches against the `order_items` table, not the CSV.  The
run is error-free: the declared foreign keys hold in the prior store,
after each load statement (each load replaces rows under their own
primary keys, so parents deleted by `OR REPLACE` are restored within the
same statement, satisfying SQLite's end-of-statement check), and in the
final store. -/
theorem c2_counterexample :
    fkOk cx2Db0 = true ∧
    fkOk (runSteps cx2Csvs ⟨cx2Db0, none⟩ [Step.load TableId.customers]).db = true ∧
    fkOk (runSteps cx2Csvs ⟨cx2Db0, none⟩
      [Step.load TableId.customers, Step.load TableId.products]).db = true ∧
    fkOk (runSteps cx2Csvs ⟨cx2Db0, none⟩
      [Step.load TableId.customers, Step.load TableId.products,
       Step.load TableId.orders]).db = true ∧
    fkOk (runSteps cx2Csvs ⟨cx2Db0, none⟩
      [Step.load TableId.customers, Step.load TableId.products,
       Step.load TableId.orders, Step.load TableId.order_items]).db = true ∧
    fkOk (runSteps cx2Csvs ⟨cx2Db0, none⟩
      [Step.load TableId.customers, Step.load TableId.products,
       Step.load TableId.orders, Step.load TableId.order_items,
       Step.load TableId.reviews]).db = true ∧
    fkOk (ingest cx2Csvs cx2Db0 false false).db = true ∧
    ((ingest cx2Csvs cx2Db0 false false).db.orders)[0]? =
      some ((projectRow colsOrders cx2OrderRow).set 3 (Value.real ⟨1000, 100⟩)) ∧
    ((ingest cx2Csvs cx2Db0 false false).db.orders)[0]? ≠
      some (projectRow colsOrders cx2OrderRow) := by decide

/-- C2 (amended): an order row whose `order_id` matches no row of the
`order_items` table after loading — which, when ingesting into a fresh or
replaced store, is exactly an order of `orders.csv` with no matching rows
in `order_items.csv` — is left entirely unchanged (total and all other
fields) by the recomputation step. -/
theorem c2_frame_amended : ∀ (csvs : Csvs) (d0 : DB) (rep b : Bool) (i : Nat) (o : Row),
    ((dbAfterLoads csvs (initDB rep d0)).orders)[i]? = some o →
    (∀ it ∈ (dbAfterLoads csvs (initDB rep d0)).order_items,
      sqlEq (vget o 0) (vget it 1) = false) →
    ((ingest csvs d0 rep b).db.orders)[i]? = some o := by
  intro csvs d0 rep b i o ho hno
  rw [ingest_db]
  show (updateTotals (dbAfterLoads csvs (initDB rep d0)).orders
    (dbAfterLoads csvs (initDB rep d0)).order_items)[i]? = some o
  rw [updateTotals, List.getElem?_map, ho]
  have hcond : ((dbAfterLoads csvs (initDB rep d0)).order_items.any
      fun it => sqlEq (vget o 0) (vget it 1)) = false := by
    rw [List.any_eq_false]
    intro it hit
    rw [hno it hit]
    exact Bool.false_ne_true
  show some (updRow _ o) = some o
  rw [updRow, if_neg]
  rw [hcond]
  exact Bool.false_ne_true

/-- Orders CSV for the C2 witness: order 5 (no items) and order 6 (the
item's parent), both customer 1's. -/
def w2Orders : List RawRow :=
  [[("order_id", "5"), ("customer_id", "1"), ("order_date", "2024-01-01"),
    ("total", "12.34"), ("status", "completed")],
   [("order_id", "6"), ("customer_id", "1"), ("order_date", "2024-01-02"),
    ("total", "2.00"), ("status", "completed")]]

/-- Items CSV for the C2 witness: only order 6 has items. -/
def w2Items : List RawRow :=
  [[("order_item_id", "1"), ("order_id", "6"), ("product_id", "1"),
    ("quantity", "1"), ("unit_price", "2.00"), ("line_total", "2.00")]]

/-- CSV set for the C2 witness: a fresh-store ingestion whose foreign
keys all resolve. -/
def w2Csvs : Csvs :=
  ⟨some cx2Customers, some cx2Products, some w2Orders, some w2Items, none⟩

/-- Witness for the amended C2 at a concrete, foreign-key-clean input:
order 5 has no items and keeps its loaded row. -/
theorem c2_frame_amended_witness :
    fkOk (ingest w2Csvs emptyDB false false).db = true ∧
    ((ingest w2Csvs emptyDB false false).db.orders)[0]? =
      some (projectRow colsOrders (w2Orders.getD 0 [])) :=
  ⟨by decide,
   c2_frame_amended w2Csvs emptyDB false false 0 (projectRow colsOrders (w2Orders.getD 0 []))
     (by decide) (by decide)⟩

/-- C8: ingesting with the replace option is independent of the prior
store, coincides with ingesting into a fresh empty store, and every row
of the resulting store derives from the current CSVs (loaded rows are
projections of CSV rows; order rows additionally pass through the total
recomputation) — no residual rows survive. -/
theorem c8_replace_semantics : ∀ (csvs : Csvs) (d0 d1 : DB) (b : Bool),
    ingest csvs d0 true b = ingest csvs d1 true b ∧
    ingest csvs d0 true b = ingest csvs emptyDB false b ∧
    (∀ r ∈ (ingest csvs d0 true b).db.customers,
      ∃ rr ∈ rowsOf csvs.customers, r = projectRow colsCustomers rr) ∧
    (∀ r ∈ (ingest csvs d0 true b).db.products,
      ∃ rr ∈ rowsOf csvs.products, r = projectRow colsProducts rr) ∧
    (∀ r ∈ (ingest csvs d0 true b).db.orders,
      ∃ rr ∈ rowsOf csvs.orders,
        r = updRow (ingest csvs d0 true b).db.order_items (projectRow colsOrders rr)) ∧
    (∀ r ∈ (ingest csvs d0 true b).db.order_items,
      ∃ rr ∈ rowsOf csvs.order_items, r = projectRow colsItems rr) ∧
    (∀ r ∈ (ingest csvs d0 true b).db.reviews,
      ∃ rr ∈ rowsOf csvs.reviews, r = projectRow colsReviews rr) := by
  intro csvs d0 d1 b
  refine ⟨rfl, rfl, ?_, ?_, ?_, ?_, ?_⟩
  · intro r hr
    rw [ingest_db] at hr
    exact mem_loadTable_empty confCust colsCustomers csvs.customers r hr
  · intro r hr
    rw [ingest_db] at hr
    exact mem_loadTable_empty confPK colsProducts csvs.products r hr
  · intro r hr
    rw [ingest_db] at hr
    have hr2 : r ∈ updateTotals (loadTable confPK colsOrders csvs.orders [])
        (loadTable confPK colsItems csvs.order_items []) := hr
    rcases List.mem_map.mp hr2 with ⟨o, ho, hu⟩
    rcases mem_loadTable_empty confPK colsOrders csvs.orders o ho with ⟨rr, hrr, hp⟩
    refine ⟨rr, hrr, ?_⟩
    rw [ingest_db]
    show r = updRow (loadTable confPK colsItems csvs.order_items []) (projectRow colsOrders rr)
    rw [← hp, hu]
  · intro r hr
    rw [ingest_db] at hr
    exact mem_loadTable_empty confPK colsItems csvs.order_items r hr
  · intro r hr
    rw [ingest_db] at hr
    exact mem_loadTable_empty confPK colsReviews csvs.reviews r hr

/-- Adding integer fractions is adding the integers. -/
theorem Frac.add_ofInt (a b : Int) :
    Frac.add (Frac.ofInt a) (Frac.ofInt b) = Frac.ofInt (a + b) := by
  simp [Frac.add, Frac.ofInt]

/-- Summing a list of integer fractions is summing the integers. -/
theorem foldl_add_ofInt : ∀ (l : List Int) (acc : Int),
    (l.map Frac.ofInt).foldl Frac.add (Frac.ofInt acc) = Frac.ofInt (acc + l.sum) := by
  intro l
  induction l with
  | nil => intro acc; simp [Frac.sumL]
  | cons x t ih =>
    intro acc
    simp only [List.map_cons, List.foldl_cons, Frac.add_ofInt, List.sum_cons]
    rw [ih (acc + x)]
    congr 1
    ring

/-- On a non-empty all-numeric list, `ROUND(SUM(..), 2)` is the rounded
exact sum of the numeric contents, as a REAL. -/
theorem sqlRound2_sqlSum_num (vs : List Value) (hne : vs ≠ [])
    (hnum : ∀ v ∈ vs, v.isNum = true) :
    sqlRound2 (sqlSum vs) = Value.real (Frac.round2 (Frac.sumL (vs.map toFrac0))) := by
  have hf : vs.filter (fun v => !v.isNull) = vs :=
    List.filter_eq_self.mpr (fun v hv => by
      have hv2 := hnum v hv
      cases v <;> simp_all [Value.isNum, Value.isNull])
  have hie : vs.isEmpty = false := by
    cases vs with
    | nil => exact absurd rfl hne
    | cons a t => rfl
  rw [sqlSum, hf, hie]
  simp only [Bool.false_eq_true, if_false]
  by_cases hi : vs.all Value.isInt = true
  · rw [if_pos hi]
    have hmap : vs.map toFrac0 = (vs.map Value.intOr0).map Frac.ofInt := by
      rw [List.map_map]
      apply List.map_congr_left
      intro v hv
      have hvi := List.all_eq_true.mp hi v hv
      cases v with
      | int i => rfl
      | null => cases hvi
      | real q => cases hvi
      | text s => cases hvi
    rw [hmap]
    show Value.real (Frac.round2 (Frac.ofInt (vs.map Value.intOr0).sum)) = _
    rw [Frac.sumL, foldl_add_ofInt, zero_add]
  · rw [if_neg hi]
    rfl

/-- Matching items exist exactly when the `UPDATE`'s `IN` test fires. -/
theorem matchingItems_ne_nil_iff (I : Table) (o : Row) :
    matchingItems I o ≠ [] ↔ (I.any fun it => sqlEq (vget o 0) (vget it 1)) = true := by
  constructor
  · intro h
    rcases List.exists_mem_of_ne_nil _ h with ⟨it, hit⟩
    rcases List.mem_filter.mp hit with ⟨hI, hs⟩
    rw [List.any_eq_true]
    exact ⟨it, hI, by rw [sqlEq_symm]; exact hs⟩
  · intro h hnil
    rcases List.any_eq_true.mp h with ⟨it, hI, hs⟩
    have hmem : it ∈ matchingItems I o :=
      List.mem_filter.mpr ⟨hI, by rw [sqlEq_symm]; exact hs⟩
    rw [hnil] at hmem
    cases hmem

/-- C1: after a full ingestion run, every order row having at least one
matching row in the stored `order_items` carries as its `total` the
2-decimal rounding of the exact sum of those items' numeric `line_total`
values — whatever total its CSV row carried (the statement does not
constrain the orders CSV). -/
theorem c1_total_reconciliation (csvs : Csvs) (d0 : DB) (rep b : Bool)
    (h0 : ∀ r ∈ (initDB rep d0).orders, 4 ≤ r.length) (o : Row)
    (ho : o ∈ (ingest csvs d0 rep b).db.orders)
    (hm : matchingItems ((ingest csvs d0 rep b).db.order_items) o ≠ [])
    (hnum : ∀ it ∈ matchingItems ((ingest csvs d0 rep b).db.order_items) o,
      (vget it 5).isNum = true) :
    vget o 3 = Value.real (Frac.round2 (Frac.sumL
      ((matchingItems ((ingest csvs d0 rep b).db.order_items) o).map
        (fun it => toFrac0 (vget it 5))))) := by
  rw [ingest_db] at ho hm hnum ⊢
  have ho2 : o ∈ updateTotals
      (loadTable confPK colsOrders csvs.orders (initDB rep d0).orders)
      (pipelineDB csvs (initDB rep d0)).order_items := ho
  rcases List.mem_map.mp ho2 with ⟨o2, ho2m, hu⟩
  subst hu
  rw [matchingItems_updRow] at hm hnum ⊢
  have hcond := (matchingItems_ne_nil_iff _ o2).mp hm
  have hlen : 4 ≤ o2.length :=
    length_loadTable confPK colsOrders csvs.orders _ 4 h0 (by decide) o2 ho2m
  have hupd : updRow (pipelineDB csvs (initDB rep d0)).order_items o2 =
      o2.set 3 (sqlRound2 (sqlSum
        ((matchingItems (pipelineDB csvs (initDB rep d0)).order_items o2).map
          fun it => vget it 5))) := by
    rw [updRow, if_pos hcond]
  rw [hupd, vget_set_self o2 _ (by omega)]
  have hne : ((matchingItems (pipelineDB csvs (initDB rep d0)).order_items o2).map
      fun it => vget it 5) ≠ [] := by
    intro hc
    exact hm (List.map_eq_nil_iff.mp hc)
  have hnum2 : ∀ v ∈ ((matchingItems (pipelineDB csvs (initDB rep d0)).order_items o2).map
      fun it => vget it 5), v.isNum = true := by
    intro v hv
    rcases List.mem_map.mp hv with ⟨it, hit, hvv⟩
    subst hvv
    exact hnum it hit
  rw [sqlRound2_sqlSum_num _ hne hnum2, List.map_map]
  rfl

/-- Orders CSV for the C1 witness: the CSV carries total 99.99, the items
sum to 30.00. -/
def w1Orders : List RawRow :=
  [[("order_id", "1"), ("customer_id", "1"), ("order_date", "2024-01-01"),
    ("total", "99.99"), ("status", "completed")]]

/-- Items CSV for the C1 witness. -/
def w1Items : List RawRow :=
  [[("order_item_id", "1"), ("order_id", "1"), ("product_id", "1"),
    ("quantity", "1"), ("unit_price", "10.00"), ("line_total", "10.00")],
   [("order_item_id", "2"), ("order_id", "1"), ("product_id", "2"),
    ("quantity", "2"), ("unit_price", "10.00"), ("line_total", "20.00")]]

/-- CSV set for the C1 witness. -/
def w1Csvs : Csvs := ⟨none, none, some w1Orders, some w1Items, none⟩

/-- The final order row of the C1 witness: total 30.00, not the CSV's
99.99. -/
def w1FinalRow : Row :=
  [Value.int 1, Value.int 1, Value.text "2024-01-01", Value.real ⟨3000, 100⟩,
   Value.text "completed"]

/-- Witness for C1 at a concrete input. -/
theorem c1_total_reconciliation_witness :
    vget w1FinalRow 3 = Value.real (Frac.round2 (Frac.sumL
      ((matchingItems ((ingest w1Csvs emptyDB false false).db.order_items) w1FinalRow).map
        (fun it => toFrac0 (vget it 5))))) :=
  c1_total_reconciliation w1Csvs emptyDB false false (by decide) w1FinalRow
    (by decide) (by decide) (by decide)

/-- A review row whose `review_id` field reads "3.7": parse-and-truncate
would give the integer 3, but the loader stores the text unchanged — the
type-conversion loop's integer column list has no `review_id`. -/
def cx4Review : RawRow :=
  [("review_id", "3.7"), ("product_id", "1"), ("customer_id", "1"), ("rating", "5"),
   ("review_text", "ok"), ("review_date", "2024-01-01")]

/-- C4 fails as stated: `review_id` is a `*_id` column, its text "3.7"
parses and truncates to the integer 3, yet the coerced-and-projected
review row keeps the text. -/
theorem c4_counterexample :
    vget (projectRow colsReviews cx4Review) 0 = Value.text "3.7" ∧
    (parseDec "3.7").map Frac.trunc = some 3 ∧
    Value.text "3.7" ≠ Value.int 3 := by decide

/-- C4 (amended): the parse-and-truncate coercion applies exactly to the
six columns of the conversion list — `customer_id`, `product_id`,
`order_id`, `order_item_id`, `rating`, `quantity` — falling back to the
original text when parsing fails; every column outside both conversion
lists (including `review_id`) keeps its text unchanged. -/
theorem c4_coercion_amended : ∀ (cols : List String) (rr : RawRow) (i : Nat) (c s : String),
    cols[i]? = some c → lookupRaw rr c = some s → s ≠ "" →
    (c ∈ intCols →
      vget (projectRow cols rr) i =
        (match parseDec s with
         | some f => Value.int f.trunc
         | none => Value.text s)) ∧
    (c ∉ intCols → c ∉ floatCols → vget (projectRow cols rr) i = Value.text s) := by
  intro cols rr i c s hc hl hs
  have hv : vget (projectRow cols rr) i = coerceField c s := by
    rw [vget, projectRow, List.getD_eq_getElem?_getD, List.getElem?_map, hc]
    show (some (match lookupRaw rr c with
      | none => Value.null
      | some s => coerceField c s)).getD Value.null = _
    rw [hl]
    rfl
  constructor
  · intro hint
    rw [hv, coerceField, if_neg hs, if_pos hint]
  · intro hni hnf
    rw [hv, coerceField, if_neg hs, if_neg hni, if_neg hnf]

/-- An order-items row with quantity "3.0" for the C4 witness. -/
def w4ItemRow : RawRow :=
  [("order_item_id", "1"), ("order_id", "1"), ("product_id", "1"),
   ("quantity", "3.0"), ("unit_price", "2.00"), ("line_total", "6.00")]

/-- Witness for the amended C4: quantity "3.0" loads as the integer 3. -/
theorem c4_coercion_amended_witness :
    vget (projectRow colsItems w4ItemRow) 3 =
      (match parseDec "3.0" with
       | some f => Value.int f.trunc
       | none => Value.text "3.0") :=
  (c4_coercion_amended colsItems w4ItemRow 3 "quantity" "3.0"
    (by decide) (by decide) (by decide)).1 (by decide)

/-- Orders CSV for the C8 witness. -/
def w8Orders : List RawRow :=
  [[("order_id", "1"), ("customer_id", "1"), ("order_date", "2024-01-01"),
    ("total", "99.99"), ("status", "completed")]]

/-- Items CSV for the C8 witness: one item of 10.00 for order 1. -/
def w8Items : List RawRow :=
  [[("order_item_id", "1"), ("order_id", "1"), ("product_id", "1"),
    ("quantity", "1"), ("unit_price", "10.00"), ("line_total", "10.00")]]

/-- CSV set for the C8 witness. -/
def w8Csvs : Csvs := ⟨none, none, some w8Orders, some w8Items, none⟩

/-- Componentwise equality of stores. -/
theorem DB.ext5 {a b : DB} (h1 : a.customers = b.customers) (h2 : a.products = b.products)
    (h3 : a.orders = b.orders) (h4 : a.order_items = b.order_items)
    (h5 : a.reviews = b.reviews) : a = b := by
  cases a; cases b; simp_all

/-- A CSV whose rows all carry a non-NULL primary-key value (column 0) —
the well-formedness required of a CSV set by the file contract. -/
def pkOkSrc (cols : List String) (src : Option (List RawRow)) : Prop :=
  ∀ rr ∈ rowsOf src, vget (projectRow cols rr) 0 ≠ Value.null

instance (cols : List String) (src : Option (List RawRow)) : Decidable (pkOkSrc cols src) :=
  List.decidableBAll (fun rr => vget (projectRow cols rr) 0 ≠ Value.null) (rowsOf src)

/-- Primary-key based loads are idempotent over well-keyed CSVs. -/
theorem loadTable_idem_pk (cols : List String) (src : Option (List RawRow)) (t : Table)
    (h : pkOkSrc cols src) :
    loadTable confPK cols src (loadTable confPK cols src t) = loadTable confPK cols src t :=
  loadTable_idem confPK cols src t
    (fun rr hrr => conf_refl_of_pk (fun _ _ hh => hh) (h rr hrr))

/-- The customers load (conflicting on key or unique email) is idempotent
over well-keyed CSVs. -/
theorem loadTable_idem_cust (src : Option (List RawRow)) (t : Table)
    (h : pkOkSrc colsCustomers src) :
    loadTable confCust colsCustomers src (loadTable confCust colsCustomers src t) =
      loadTable confCust colsCustomers src t :=
  loadTable_idem confCust colsCustomers src t
    (fun rr hrr =>
      conf_refl_of_pk (fun r u hh => by rw [confCust, hh, Bool.true_or]) (h rr hrr))

/-- C3: re-running ingestion with the same CSV set against the store the
first run produced leaves every table exactly as after the first run
(for CSV sets whose rows carry their primary keys, as the file contract
prescribes): values are overwritten in place, never duplicated. -/
theorem c3_idempotent_reingestion : ∀ (csvs : Csvs) (d0 : DB) (rep b b2 : Bool),
    pkOkSrc colsCustomers csvs.customers → pkOkSrc colsProducts csvs.products →
    pkOkSrc colsOrders csvs.orders → pkOkSrc colsItems csvs.order_items →
    pkOkSrc colsReviews csvs.reviews →
    (ingest csvs (ingest csvs d0 rep b).db false b2).db = (ingest csvs d0 rep b).db := by
  intro csvs d0 rep b b2 h1 h2 h3 h4 h5
  rw [ingest_db, ingest_db]
  show pipelineDB csvs (pipelineDB csvs (initDB rep d0)) = pipelineDB csvs (initDB rep d0)
  set D := initDB rep d0 with hD
  have hitems : loadTable confPK colsItems csvs.order_items
      (pipelineDB csvs D).order_items = (pipelineDB csvs D).order_items :=
    loadTable_idem_pk colsItems csvs.order_items D.order_items h4
  apply DB.ext5
  · exact loadTable_idem_cust csvs.customers D.customers h1
  · exact loadTable_idem_pk colsProducts csvs.products D.products h2
  · show updateTotals
        (loadTable confPK colsOrders csvs.orders (pipelineDB csvs D).orders)
        (loadTable confPK colsItems csvs.order_items (pipelineDB csvs D).order_items) =
      (pipelineDB csvs D).orders
    rw [hitems]
    exact orders_load_update_idem csvs.orders D.orders
      (loadTable confPK colsItems csvs.order_items D.order_items)
      (fun rr hrr => conf_refl_of_pk (fun _ _ hh => hh) (h3 rr hrr))
  · exact hitems
  · exact loadTable_idem_pk colsReviews csvs.reviews D.reviews h5

/-- Customers CSV for the C3 witness. -/
def w3Customers : List RawRow :=
  [[("customer_id", "1"), ("name", "Alice"), ("email", "alice@example.com"),
    ("address", "1 A St"), ("join_date", "2023-01-01")]]

/-- CSV set for the C3 witness, touching all interacting tables. -/
def w3Csvs : Csvs := ⟨some w3Customers, none, some w8Orders, some w8Items, none⟩

/-- Witness for C3 at a concrete input: the second run reproduces the
first run's store exactly. -/
theorem c3_idempotent_reingestion_witness :
    (ingest w3Csvs (ingest w3Csvs emptyDB false false).db false false).db =
      (ingest w3Csvs emptyDB false false).db :=
  c3_idempotent_reingestion w3Csvs emptyDB false false false
    (by decide) (by decide) (by decide) (by decide) (by decide)

/-- Witness for C8 at a concrete input: the single final order row of a
replace-run derives from the orders CSV through the total update. -/
theorem c8_replace_semantics_witness :
    ∃ rr ∈ rowsOf w8Csvs.orders,
      [Value.int 1, Value.int 1, Value.text "2024-01-01", Value.real ⟨1000, 100⟩,
        Value.text "completed"] =
        updRow (ingest w8Csvs emptyDB true false).db.order_items (projectRow colsOrders rr) :=
  (c8_replace_semantics w8Csvs emptyDB emptyDB false).2.2.2.2.1
    [Value.int 1, Value.int 1, Value.text "2024-01-01", Value.real ⟨1000, 100⟩,
      Value.text "completed"] (by decide)

/-! Facts about the LTV query. -/

/-- Customer rows with pairwise-distinct grouping keys: the shape every
table reached through primary-key upserts has. -/
def distinctKeys (cs : Table) : Prop := List.Pairwise (fun a b => keyEqB a b = false) cs

instance (cs : Table) : Decidable (distinctKeys cs) := by
  unfold distinctKeys
  infer_instance

/-- With pairwise-distinct keys each customer row leads its own group. -/
theorem leadersAux_of_distinct : ∀ (cs seen : List Row),
    List.Pairwise (fun a b => keyEqB a b = false) cs →
    (∀ p ∈ seen, ∀ c ∈ cs, keyEqB p c = false) →
    leadersAux seen cs = cs := by
  intro cs
  induction cs with
  | nil => intro seen _ _; rfl
  | cons c t ih =>
    intro seen hp hs
    have hany : (seen.any fun p => keyEqB p c) = false := by
      rw [List.any_eq_false]
      intro p hps
      rw [hs p hps c (List.mem_cons_self c t)]
      exact Bool.false_ne_true
    rw [leadersAux, hany]
    simp only [Bool.false_eq_true, if_false]
    congr 1
    apply ih (c :: seen) (List.Pairwise.sublist (List.sublist_cons_self c t) hp)
    intro p hpm x hx
    rcases List.mem_cons.mp hpm with h | h
    · subst h
      exact (List.pairwise_cons.mp hp).1 x hx
    · exact hs p h x (List.mem_cons_of_mem c hx)

theorem leaders_of_distinct (cs : Table) (hd : distinctKeys cs) : leaders cs = cs :=
  leadersAux_of_distinct cs [] hd (fun p hp => absurd hp (List.not_mem_nil p))

/-- With pairwise-distinct keys the group of a member row is itself. -/
theorem members_single : ∀ (cs : List Row), distinctKeys cs → ∀ c ∈ cs,
    cs.filter (fun m => keyEqB m c) = [c] := by
  intro cs
  induction cs with
  | nil => intro _ c hc; cases hc
  | cons a t ih =>
    intro hd c hc
    have hd2 := List.pairwise_cons.mp hd
    rcases List.mem_cons.mp hc with h | h
    · subst h
      rw [List.filter_cons, keyEqB_refl]
      simp only [if_true]
      congr 1
      rw [List.filter_eq_nil_iff]
      intro m hm
      rw [keyEqB_symm, hd2.1 m hm]
      exact Bool.false_ne_true
    · rw [List.filter_cons]
      have hac : keyEqB a c = false := hd2.1 c h
      rw [hac]
      simp only [Bool.false_eq_true, if_false]
      exact ih hd2.2 c h

/-- The output row of the LTV query for a customer with no completed
orders: id, name, then 0, 0, 0 and a NULL date. -/
theorem ltvRow_zero (os : Table) (cs : Table) (hd : distinctKeys cs) (c : Row)
    (hc : c ∈ cs) (hz : completedFor os c = []) :
    ltvRow os cs c = [vget c 0, vget c 1, Value.int 0, Value.int 0, Value.int 0, Value.null] := by
  rw [ltvRow, members_single cs hd c hc]
  show [vget c 0, vget c 1, _, _, _, _] = _
  rw [show ([c].flatMap (completedFor os)) = completedFor os c by simp, hz]
  rfl

/-- Membership transfers through the report's sort. -/
theorem mem_ltvReport (cs os : Table) (r : Row) :
    r ∈ ltvReport cs os ↔ r ∈ ltvRows cs os :=
  (List.perm_insertionSort spendOrder (ltvRows cs os)).mem_iff

/-- C6: on a customers table with pairwise-distinct grouping keys the LTV
report has exactly one row per customer row, and a customer with no
completed orders is reported with lifetime spend 0, order count 0 and
average order value 0 (the division-guarding `CASE` branch). -/
theorem c6_one_row_per_customer (cs os : Table) (hd : distinctKeys cs) :
    (ltvReport cs os).length = cs.length ∧
    ∀ c ∈ cs, completedFor os c = [] →
      [vget c 0, vget c 1, Value.int 0, Value.int 0, Value.int 0, Value.null] ∈
        ltvReport cs os := by
  constructor
  · rw [ltvReport, List.length_insertionSort, ltvRows, leaders_of_distinct cs hd,
      List.length_map]
  · intro c hc hz
    rw [mem_ltvReport, ltvRows, leaders_of_distinct cs hd]
    rw [← ltvRow_zero os cs hd c hc hz]
    exact List.mem_map_of_mem (ltvRow os cs) hc

/-- Customers table for the C6 witness. -/
def w6Customers : Table :=
  [[Value.int 1, Value.text "Bob", Value.text "bob@example.com", Value.text "2 B St",
    Value.text "2023-05-01"]]

/-- Orders table for the C6 witness: Bob's only order is cancelled. -/
def w6Orders : Table :=
  [[Value.int 9, Value.int 1, Value.text "2024-01-01", Value.real ⟨1000, 100⟩,
    Value.text "cancelled"]]

/-- Witness for C6 at a concrete input. -/
theorem c6_one_row_per_customer_witness :
    (ltvReport w6Customers w6Orders).length = w6Customers.length ∧
    [Value.int 1, Value.text "Bob", Value.int 0, Value.int 0, Value.int 0, Value.null] ∈
      ltvReport w6Customers w6Orders := by
  have h := c6_one_row_per_customer w6Customers w6Orders (by decide)
  exact ⟨h.1, h.2 (w6Customers.getD 0 []) (by decide) (by decide)⟩

/-- Filtering the orders to the completed ones changes nothing in the
join of the LTV query. -/
theorem completedFor_filter_completed (os : Table) :
    completedFor (os.filter fun o => sqlEq (vget o 4) (Value.text "completed")) =
      completedFor os := by
  funext m
  rw [completedFor, completedFor, List.filter_filter]
  apply List.filter_congr
  intro o _
  cases hx : sqlEq (vget o 1) (vget m 0) <;>
    cases hy : sqlEq (vget o 4) (Value.text "completed") <;> simp [hx, hy]

/-- Customers CSV of the spec's LTV example. -/
def exCustomers : List RawRow :=
  [[("customer_id", "1"), ("name", "Alice"), ("email", "alice@example.com"),
    ("address", "1 A St"), ("join_date", "2023-01-01")]]

/-- Orders CSV of the spec's LTV example: two completed orders of 30.00
and 20.00 and one cancelled order of 100.00, all Alice's. -/
def exOrders : List RawRow :=
  [[("order_id", "1"), ("customer_id", "1"), ("order_date", "2024-01-05"),
    ("total", "30.00"), ("status", "completed")],
   [("order_id", "2"), ("customer_id", "1"), ("order_date", "2024-02-10"),
    ("total", "20.00"), ("status", "completed")],
   [("order_id", "3"), ("customer_id", "1"), ("order_date", "2024-03-01"),
    ("total", "100.00"), ("status", "cancelled")]]

/-- CSV set of the spec's LTV example. -/
def exCsvs : Csvs := ⟨some exCustomers, none, some exOrders, none, none⟩

/-- C7: the LTV report aggregates completed orders only — the report over
any orders table equals the report over its completed rows alone — and on
the spec's example (completed 30.00 and 20.00, cancelled 100.00) the
single report row shows lifetime spend 50, orders count 2, average 25.00
and the later completed date, the cancelled order contributing nothing. -/
theorem c7_completed_only :
    (∀ cs os : Table,
      ltvReport cs os =
        ltvReport cs (os.filter fun o => sqlEq (vget o 4) (Value.text "completed"))) ∧
    (∃ r, (ingest exCsvs emptyDB false true).report = some [r] ∧
      vget r 0 = Value.int 1 ∧ vget r 1 = Value.text "Alice" ∧
      sqlEq (vget r 2) (Value.real ⟨50, 1⟩) = true ∧ vget r 3 = Value.int 2 ∧
      sqlEq (vget r 4) (Value.real ⟨25, 1⟩) = true ∧
      vget r 5 = Value.text "2024-02-10") := by
  constructor
  · intro cs os
    rw [ltvReport, ltvReport]
    apply congrArg (List.insertionSort spendOrder)
    rw [ltvRows, ltvRows]
    apply List.map_congr_left
    intro c _
    rw [ltvRow, ltvRow, completedFor_filter_completed]
  · exact ⟨[Value.int 1, Value.text "Alice", Value.real ⟨500000, 10000⟩, Value.int 2,
      Value.real ⟨2500, 100⟩, Value.text "2024-02-10"],
      by decide, by decide, by decide, by decide, by decide, by decide, by decide⟩

/-- C10: on a customers table with pairwise-distinct grouping keys, a
customer with zero completed orders is reported with a NULL
`last_order_date` — the zero default of spend/count/average is not
applied to the `MAX(o.order_date)` column. -/
theorem c10_null_last_date (cs os : Table) (hd : distinctKeys cs) (c : Row) (hc : c ∈ cs)
    (hz : completedFor os c = []) :
    ∃ r ∈ ltvReport cs os,
      vget r 0 = vget c 0 ∧ vget r 1 = vget c 1 ∧
      vget r 2 = Value.int 0 ∧ vget r 5 = Value.null := by
  refine ⟨[vget c 0, vget c 1, Value.int 0, Value.int 0, Value.int 0, Value.null],
    ?_, rfl, rfl, rfl, rfl⟩
  rw [mem_ltvReport, ltvRows, leaders_of_distinct cs hd,
    ← ltvRow_zero os cs hd c hc hz]
  exact List.mem_map_of_mem (ltvRow os cs) hc

/-- Customers table for the C10 witness. -/
def w10Customers : Table :=
  [[Value.int 4, Value.text "Dana", Value.text "dana@example.com", Value.text "4 D St",
    Value.text "2023-07-01"]]

/-- Orders table for the C10 witness: Dana's only order is returned, not
completed. -/
def w10Orders : Table :=
  [[Value.int 12, Value.int 4, Value.text "2024-04-01", Value.real ⟨2000, 100⟩,
    Value.text "returned"]]

/-- Witness for C10 at a concrete input. -/
theorem c10_null_last_date_witness :
    ∃ r ∈ ltvReport w10Customers w10Orders,
      vget r 0 = vget (w10Customers.getD 0 []) 0 ∧
      vget r 1 = vget (w10Customers.getD 0 []) 1 ∧
      vget r 2 = Value.int 0 ∧ vget r 5 = Value.null :=
  c10_null_last_date w10Customers w10Orders (by decide) (w10Customers.getD 0 [])
    (by decide) (by decide)

end Ecom
